import Mathlib

/-
  Shallow embedding of the Swiss pairing engine of the `swiss-matching`
  repository (src/services/tournament_service.rs and src/models/tournament.rs).

  Rust `HashMap<u32, Player>` values are modelled as association lists whose
  list order stands for the map's iteration order; `u32`/`usize` become `Nat`,
  `isize` becomes `Int` (overflow is not reachable at tournament scale), and
  fallible or panicking code returns `Option`/`Except`.

  The external matching primitive `rustworkx_core::max_weight_matching`
  (called with `max_cardinality = true`) is modelled by `bruteMatcher`, a
  brute-force maximum-cardinality, maximum-weight matching over the edge
  list, which is that library's documented contract.
-/

namespace Swiss

/-- Rust `str::trim`, modelled on the character list so that it evaluates. -/
def trimStr (s : String) : String :=
  ⟨((s.data.dropWhile Char.isWhitespace).reverse.dropWhile Char.isWhitespace).reverse⟩

/-- Rust `str::to_lowercase`, modelled on the character list. -/
def lowerStr (s : String) : String :=
  ⟨s.data.map Char.toLower⟩

inductive Color
  | White
  | Black
deriving DecidableEq, Repr, Fintype

def Color.other : Color → Color
  | .White => .Black
  | .Black => .White

inductive GameResult
  | Ongoing
  | WhiteWins
  | Draw
  | BlackWins
  | DoubleLoss
deriving DecidableEq, Repr

def GameResult.from_str (s : String) : GameResult :=
  match trimStr s with
  | "1-0" => .WhiteWins
  | "1 - 0" => .WhiteWins
  | "1/2-1/2" => .Draw
  | "1/2 - 1/2" => .Draw
  | "½-½" => .Draw
  | "½ - ½" => .Draw
  | "=-=" => .Draw
  | "= - =" => .Draw
  | "0-1" => .BlackWins
  | "0 - 1" => .BlackWins
  | "0-0" => .DoubleLoss
  | "0 - 0" => .DoubleLoss
  | _ => .Ongoing

inductive PlayerResult
  | Win
  | Lose
  | Draw
deriving DecidableEq, Repr

inductive PlayerStatus
  | Active
  | Inactive
deriving DecidableEq, Repr

def PlayerStatus.from_str (s : String) : PlayerStatus :=
  match trimStr s with
  | "inactive" => .Inactive
  | _ => .Active

inductive Title
  | Untitled
  | WNM
  | WCM
  | WFM
  | NM
  | CM
  | WIM
  | FM
  | WGM
  | IM
  | GM
deriving DecidableEq, Repr

/-- The discriminant of the `Title` enum; Rust's derived `Ord` compares by it. -/
def Title.rank : Title → Nat
  | .Untitled => 0
  | .WNM => 1
  | .WCM => 2
  | .WFM => 3
  | .NM => 4
  | .CM => 5
  | .WIM => 6
  | .FM => 7
  | .WGM => 8
  | .IM => 9
  | .GM => 10

def Title.cmp (a b : Title) : Ordering := compare a.rank b.rank

def Title.from_str (s : String) : Title :=
  match trimStr (lowerStr s) with
  | "wnm" => .WNM
  | "woman National Master" => .WNM
  | "wcm" => .WCM
  | "woman Candidate Master" => .WCM
  | "wfm" => .WFM
  | "woman FIDE Master" => .WFM
  | "nm" => .NM
  | "national Master" => .NM
  | "cm" => .CM
  | "candidate Master" => .CM
  | "wim" => .WIM
  | "woman International Master" => .WIM
  | "fm" => .FM
  | "fide Master" => .FM
  | "wgm" => .WGM
  | "woman Grandmaster" => .WGM
  | "im" => .IM
  | "international Master" => .IM
  | "gm" => .GM
  | "grandmaster" => .GM
  | _ => .Untitled

inductive HistoryItem
  | NotPaired (score : Nat)
  | Bye
  | Game (opponent_id : Nat) (color : Color) (result : GameResult)
deriving DecidableEq, Repr

structure Player where
  id : Nat
  db_id : Nat
  name : String
  rating : Nat
  title : Title
  history : List HistoryItem
  floats : Nat
  fide_id : Option Nat
  federation : Option String
  status : PlayerStatus
deriving DecidableEq, Repr

/-- Stand-in value for map lookups that would panic in the Rust original;
every claim below only exercises lookups of registered players. -/
def defaultPlayer : Player :=
  { id := 0, db_id := 0, name := "", rating := 0, title := .Untitled,
    history := [], floats := 0, fide_id := none, federation := none,
    status := .Active }

structure Tournament where
  id : Nat
  name : String
  time_category : String
  players : List Player
  pairings : List (List (Nat × Nat))
  byes : List (List Nat)
  results : List (List GameResult)
  num_rounds : Nat
  start_date : Nat
  federation : String
  user_id : Nat
  username : String
  updated_at : Nat
  end_date : Option Nat
  url : Option String
deriving DecidableEq, Repr

structure PlayerStanding where
  player_id : Nat
  score : Nat
  buchholz : Nat
  median_buchholz : Nat
  cut_one_buchholz : Nat
  progressive : Nat
deriving DecidableEq, Repr

def PlayerStanding.new (id : Nat) : PlayerStanding :=
  { player_id := id, score := 0, buchholz := 0, median_buchholz := 0,
    cut_one_buchholz := 0, progressive := 0 }

structure NewDbPairing where
  tournament_id : Nat
  round_number : Nat
  board_number : Nat
  white_id : Nat
  black_id : Nat
deriving DecidableEq, Repr

structure NewDbPairingGap where
  player_id : Nat
  tournament_id : Nat
  round_id : Nat
  score : Nat
  is_bye : Bool
deriving DecidableEq, Repr

structure NewPairings where
  round : Nat
  pairings : List NewDbPairing
  gaps : List NewDbPairingGap
  floats : List Nat
deriving DecidableEq, Repr

inductive AppError
  | InsufficientPlayers
  | EmptyPairingsGenerated
  | DuplicatePlayerResult (player_id : Nat)
  | RoundNotDone
  | RoundNotFound (round : Nat)
  | TournamentEnded
  | TournamentNotStarted
  | InvalidRound (round : Nat)
  | Unknown
deriving DecidableEq, Repr

structure NextPairings where
  first_color : Option String
  inactive_scores : List (Nat × String)

structure RoundResult where
  round_id : Nat
  board_id : Nat
  result : String

/- ----------------- Player methods ----------------- -/

def Player.tournament_score (p : Player) : Nat :=
  p.history.foldl
    (fun acc item =>
      match item with
      | .NotPaired score => acc + score
      | .Bye => acc + 2
      | .Game _ color result =>
        match color, result with
        | .White, .WhiteWins => acc + 2
        | .White, .Draw => acc + 1
        | .Black, .Draw => acc + 1
        | .Black, .BlackWins => acc + 2
        | _, _ => acc) 0

def Player.byes (p : Player) : Nat :=
  (p.history.filter (fun h => h = HistoryItem.Bye)).length

def Player.color_history (p : Player) : List Color :=
  p.history.filterMap
    (fun item =>
      match item with
      | .NotPaired _ => none
      | .Bye => none
      | .Game _ color _ => some color)

def Player.has_played (p : Player) (player_id : Nat) : Bool :=
  (p.history.filterMap
    (fun item =>
      match item with
      | .NotPaired _ => none
      | .Bye => none
      | .Game opponent_id _ _ => some opponent_id)).any (fun id => id = player_id)

/- ----------------- Tournament helpers ----------------- -/

def Tournament.findPlayer (t : Tournament) (id : Nat) : Option Player :=
  t.players.find? (fun p => p.id = id)

def Tournament.getPlayer (t : Tournament) (id : Nat) : Player :=
  (t.findPlayer id).getD defaultPlayer

/-- Comparator of `player_tpn`: rating descending, then title ascending. -/
def tpnCmp (a b : Player) : Ordering :=
  (compare b.rating a.rating).then (Title.cmp a.title b.title)

def Tournament.sortedByRating (t : Tournament) : List Player :=
  List.insertionSort (fun a b => tpnCmp a b ≠ Ordering.gt) t.players

def Tournament.player_tpn (t : Tournament) (player_id : Nat) : Nat :=
  List.indexOf player_id (t.sortedByRating.map Player.id)

def Tournament.active_players (t : Tournament) : List Player :=
  t.players.filter (fun p => p.status = PlayerStatus.Active)

def Tournament.current_round (t : Tournament) : Nat :=
  t.pairings.length

/- ----------------- Score groups ----------------- -/

/-- `HashMap::entry(..).and_modify(push).or_insert(vec![p])` over an
association list: append into the group of `score`, or create it. -/
def insertGroup : List (Nat × List Player) → Nat → Player → List (Nat × List Player)
  | [], score, p => [(score, [p])]
  | (s, g) :: rest, score, p =>
    if s = score then (s, g ++ [p]) :: rest
    else (s, g) :: insertGroup rest score p

def tpnLe (t : Tournament) (a b : Player) : Prop :=
  t.player_tpn a.id ≤ t.player_tpn b.id

instance (t : Tournament) : DecidableRel (tpnLe t) := by
  intro a b
  unfold tpnLe
  infer_instance

def Tournament.group_players_by_score (t : Tournament) : List (Nat × List Player) :=
  let groups := t.players.foldl (fun gs p => insertGroup gs p.tournament_score p) []
  groups.map (fun g => (g.fst, List.insertionSort (tpnLe t) g.snd))

def groupGet (groups : List (Nat × List Player)) (score : Nat) : List Player :=
  ((groups.find? (fun g => g.fst = score)).map Prod.snd).getD []

/-- `groups.keys().min()`; the Rust `unwrap` only runs on the weight of an
actual edge, whose endpoints guarantee a nonempty group map. -/
def minGroupKey (groups : List (Nat × List Player)) : Nat :=
  match groups.map Prod.fst with
  | [] => 0
  | k :: ks => ks.foldl Nat.min k

/- ----------------- Edge weight ----------------- -/

/-- `isize::MIN` on a 64-bit target. -/
def isizeMIN : Int := -(2 ^ 63)

/-- `slice::last_chunk::<2>`: the last two elements, oldest first. -/
def last2 (l : List Color) : Option (Color × Color) :=
  match l.reverse with
  | b :: a :: _ => some (a, b)
  | _ => none

/-- The same-last-color penalty of `edge_weight` as a function of the two
players' most recent colors. -/
def colorPenaltyOf : Option Color → Option Color → Int
  | some l1, some l2 => if l1 = l2 then 10 else 0
  | _, _ => 0

/-- The score-similarity penalty of `edge_weight` as a function of the score
difference. -/
def scorePenaltyOf : Nat → Int
  | 0 => 0
  | 1 => 80
  | 2 => 570
  | 3 => 1350
  | 4 => 2250
  | d => 2250 + (d : Int) * 200

/-- The weighted part of `edge_weight` (everything after the hard rejection). -/
def edgeWeightBody (p1 p2 : Player) (group_ranks : Nat × Nat) (group_len : Nat × Nat)
    (min_score : Nat) : Int :=
  let p1_colors := p1.color_history
  let p2_colors := p2.color_history
  let s1 := p1.tournament_score
  let s2 := p2.tournament_score
  let score_diff := Nat.dist s1 s2
  let score_penalty : Int := scorePenaltyOf score_diff
  let w1 : Int := 5000 - score_penalty
  let w2 : Int := w1 + ((s1 + s2 : Nat) : Int) * 5
  let color_penalty : Int := colorPenaltyOf p1_colors.getLast? p2_colors.getLast?
  let w3 : Int := w2 - color_penalty
  let half_pair_deviation_penalty : Int :=
    if s1 = s2 then
      let mid := group_len.fst / 2
      let dist : Int := (Nat.dist group_ranks.fst group_ranks.snd : Nat)
      ((dist - (mid : Int)).natAbs : Int) * 5
    else 0
  let w4 : Int := w3 - half_pair_deviation_penalty
  let w5 : Int := w4 - ((p1.floats + p2.floats : Nat) : Int) * 20
  let isolation_bonus : Int :=
    if s1 ≠ min_score ∧ s2 ≠ min_score then
      200 / ((Nat.max group_len.fst group_len.snd : Nat) : Int)
    else 0
  let w6 : Int := w5 + isolation_bonus
  let float_rank_penalty : Int :=
    if s1 ≠ s2 then
      let hi := if s1 < s2 then (group_ranks.snd, group_len.snd)
                else (group_ranks.fst, group_len.fst)
      (((hi.snd - 1 : Nat) : Int) - (hi.fst : Int)) * 10
    else 0
  w6 - float_rank_penalty

def edge_weight (p1 p2 : Player) (group_ranks : Nat × Nat) (group_len : Nat × Nat)
    (min_score : Nat) : Int :=
  match last2 p1.color_history, last2 p2.color_history with
  | some c1, some c2 =>
    if c1.fst = c1.snd ∧ c1 = c2 then isizeMIN
    else edgeWeightBody p1 p2 group_ranks group_len min_score
  | _, _ => edgeWeightBody p1 p2 group_ranks group_len min_score

/- ----------------- Matching primitive ----------------- -/

/-- All sublists of a list (the candidate edge subsets). -/
def subsetsL {α : Type} : List α → List (List α)
  | [] => [[]]
  | a :: l => (subsetsL l).map (a :: ·) ++ subsetsL l

/-- Endpoints of an edge list. -/
def nodesOf (m : List (Nat × Nat)) : List Nat :=
  m.map Prod.fst ++ m.map Prod.snd

def distinctNats : List Nat → Bool
  | [] => true
  | a :: rest => !rest.contains a && distinctNats rest

def matchingWeight (w : Nat → Nat → Int) (m : List (Nat × Nat)) : Int :=
  (m.map (fun e => w e.fst e.snd)).sum

/-- Model of `max_weight_matching(g, true, weight_fn, true)`: among all
matchings contained in the edge list, pick one of maximum cardinality and,
among those, of maximum total weight. -/
def bruteMatcher (edges : List (Nat × Nat)) (w : Nat → Nat → Int) : List (Nat × Nat) :=
  ((subsetsL edges).filter (fun m => distinctNats (nodesOf m))).foldl
    (fun best c =>
      if c.length > best.length ∨
          (c.length = best.length ∧ matchingWeight w c > matchingWeight w best)
      then c else best) []

/- ----------------- prepare_pairings ----------------- -/

/-- `itertools::tuple_combinations` over the key list, in order. -/
def tuple_combinations : List Nat → List (Nat × Nat)
  | [] => []
  | a :: rest => rest.map (fun b => (a, b)) ++ tuple_combinations rest

/-- Sort key of the bye candidate sort: byes received descending, tournament
score descending, TPN ascending. -/
def byeCmp (t : Tournament) (a b : Player) : Ordering :=
  ((compare b.byes a.byes).then (compare b.tournament_score a.tournament_score)).then
    (compare (t.player_tpn a.id) (t.player_tpn b.id))

def byeLe (t : Tournament) (a b : Player) : Prop :=
  byeCmp t a b ≠ Ordering.gt

instance (t : Tournament) : DecidableRel (byeLe t) := by
  intro a b
  unfold byeLe
  infer_instance

def Tournament.byeSorted (t : Tournament) : List Player :=
  List.insertionSort (byeLe t) t.active_players

/-- Board-order comparator on matched pairs. -/
def boardCmp (t : Tournament) (a b : Nat × Nat) : Ordering :=
  let w1 := t.getPlayer a.fst
  let b1 := t.getPlayer a.snd
  let w2 := t.getPlayer b.fst
  let b2 := t.getPlayer b.snd
  ((compare (Nat.max w2.tournament_score b2.tournament_score)
      (Nat.max w1.tournament_score b1.tournament_score)).then
    (compare (Nat.min w2.tournament_score b2.tournament_score)
      (Nat.min w1.tournament_score b1.tournament_score))).then
    (compare (Nat.min (t.player_tpn w1.id) (t.player_tpn b1.id))
      (Nat.min (t.player_tpn w2.id) (t.player_tpn b2.id)))

def boardLe (t : Tournament) (a b : Nat × Nat) : Prop :=
  boardCmp t a b ≠ Ordering.gt

instance (t : Tournament) : DecidableRel (boardLe t) := by
  intro a b
  unfold boardLe
  infer_instance

def Tournament.prepare_pairings (t : Tournament) :
    Except AppError (List (Nat × Nat) × List Nat × List Nat) :=
  let active_players_count := t.active_players.length
  let byes : List Nat :=
    if active_players_count % 2 ≠ 0 then
      match t.byeSorted.getLast? with
      | some bottom => [bottom.id]
      | none => []
    else []
  if t.pairings.length = t.num_rounds then .error .TournamentEnded
  else
    let groups := t.group_players_by_score
    let edges :=
      (tuple_combinations (t.players.map Player.id)).filter
        (fun e =>
          ¬ ((t.getPlayer e.fst).status = PlayerStatus.Inactive ∨
             (t.getPlayer e.snd).status = PlayerStatus.Inactive ∨
             byes.contains e.fst ∨ byes.contains e.snd ∨
             (t.getPlayer e.fst).has_played e.snd ∨
             (t.getPlayer e.snd).has_played e.fst))
    let min_score := minGroupKey groups
    let wfn : Nat → Nat → Int := fun id1 id2 =>
      let p1 := t.getPlayer id1
      let p2 := t.getPlayer id2
      let g1 := groupGet groups p1.tournament_score
      let g2 := groupGet groups p2.tournament_score
      edge_weight p1 p2
        (g1.findIdx (fun p => p.id = id1), g2.findIdx (fun p => p.id = id2))
        (g1.length, g2.length) min_score
    let matched := bruteMatcher edges wfn
    let sorted := List.insertionSort (boardLe t) matched
    let floats :=
      sorted.foldl
        (fun acc wb =>
          let score_w := (t.getPlayer wb.fst).tournament_score
          let score_b := (t.getPlayer wb.snd).tournament_score
          if score_w > score_b then acc ++ [wb.snd]
          else if score_b > score_w then acc ++ [wb.fst]
          else acc) []
    .ok (sorted, byes, floats)

/- ----------------- process_pairings and the two generators ----------------- -/

def scoresGet (m : List (Nat × PlayerResult)) (id : Nat) : Option PlayerResult :=
  (m.find? (fun e => e.fst = id)).map Prod.snd

def Tournament.process_pairings (t : Tournament) (pairings : List (Nat × Nat))
    (byes : List Nat) (inactive_scores : List (Nat × PlayerResult)) :
    List NewDbPairing × List NewDbPairingGap :=
  let db_pairings : List NewDbPairing :=
    pairings.enum.map
      (fun e =>
        { tournament_id := t.id, round_number := t.pairings.length,
          board_number := e.fst, white_id := e.snd.fst, black_id := e.snd.snd })
  let bye_gaps : List NewDbPairingGap :=
    byes.map
      (fun id =>
        { player_id := id, tournament_id := t.id, round_id := t.pairings.length,
          score := 2, is_bye := true })
  let inactive_gaps : List NewDbPairingGap :=
    (t.players.filter (fun p => p.status = PlayerStatus.Inactive)).map
      (fun player =>
        match scoresGet inactive_scores player.id with
        | some result =>
          { player_id := player.id, tournament_id := t.id,
            round_id := t.pairings.length,
            score := match result with
              | .Win => 2
              | .Lose => 0
              | .Draw => 1,
            is_bye := false }
        | none =>
          { player_id := player.id, tournament_id := t.id,
            round_id := t.pairings.length, score := 0, is_bye := false })
  (db_pairings, bye_gaps ++ inactive_gaps)

/-- Round-1 color assignment: alternate the color of the top seed. -/
def assignFirstColors : Color → List (Nat × Nat) → List (Nat × Nat)
  | _, [] => []
  | current_color, pair :: rest =>
    let pair' :=
      if current_color = Color.White ∧ pair.fst > pair.snd then (pair.snd, pair.fst)
      else if current_color = Color.Black ∧ pair.fst < pair.snd then (pair.snd, pair.fst)
      else pair
    pair' :: assignFirstColors current_color.other rest

def Tournament.generate_first_round_pairings (t : Tournament)
    (inactive_scores : List (Nat × PlayerResult)) (first_color : Color) :
    Except AppError NewPairings :=
  match t.prepare_pairings with
  | .error e => .error e
  | .ok (pairings, byes, floats) =>
    let pairings := assignFirstColors first_color pairings
    let pg := t.process_pairings pairings byes inactive_scores
    .ok { round := 0, pairings := pg.fst, gaps := pg.snd, floats := floats }

/-- `White => +1, Black => -1` summed over a color history. -/
def colorBalance (l : List Color) : Int :=
  l.foldl
    (fun acc c =>
      match c with
      | Color.White => acc + 1
      | Color.Black => acc - 1) 0

/-- The per-pair color assignment of `generate_next_round_pairings`. -/
def assignPairColors (t : Tournament) (pair : Nat × Nat) : Nat × Nat :=
  let p1 := t.getPlayer pair.fst
  let p2 := t.getPlayer pair.snd
  let p1_colors := p1.color_history
  let p2_colors := p2.color_history
  match p1_colors.getLast?, p2_colors.getLast? with
  | none, none => pair
  | none, some p2_last_color =>
    if p2_last_color = Color.Black then (p2.id, p1.id) else pair
  | some p1_last_color, none =>
    if p1_last_color = Color.White then (p2.id, p1.id) else pair
  | some p1_last_color, some p2_last_color =>
    if p1_last_color ≠ p2_last_color ∧ p1_last_color = Color.White then (p2.id, p1.id)
    else if p1_last_color = p2_last_color then
      let p1_color_balance := colorBalance p1_colors
      let p2_color_balance := colorBalance p2_colors
      if p1_color_balance > p2_color_balance then (p2.id, p1.id)
      else if p1_color_balance = p2_color_balance ∧
          t.player_tpn p1.id < t.player_tpn p2.id then (p2.id, p1.id)
      else pair
    else pair

def Tournament.generate_next_round_pairings (t : Tournament)
    (inactive_scores : List (Nat × PlayerResult)) : Except AppError NewPairings :=
  match t.prepare_pairings with
  | .error e => .error e
  | .ok (pairings, byes, floats) =>
    let pairings := pairings.map (assignPairColors t)
    let pg := t.process_pairings pairings byes inactive_scores
    if pg.fst = [] then .error .EmptyPairingsGenerated
    else .ok { round := t.current_round, pairings := pg.fst, gaps := pg.snd,
               floats := floats }

/- ----------------- standings ----------------- -/

/-- The per-history-item round score used inside `standings` (win in own
color = 2, draw = 1, anything else = 0). -/
def itemScore : HistoryItem → Nat
  | .NotPaired score => score
  | .Bye => 2
  | .Game _ color result =>
    match color, result with
    | .White, .WhiteWins => 2
    | .Black, .BlackWins => 2
    | _, .Draw => 1
    | _, _ => 0

def roundScoreAt (p : Player) (round : Nat) : Nat :=
  match p.history.get? round with
  | some item => itemScore item
  | none => 0

/-- One pass of the score/progressive loop over the player list;
`prev` is the `prev_scores` accumulator map as a function of player id.
Note faithfully kept from the source: the accumulator adds the full
`standing.progressive` (not the new score) into `prev.progressive`. -/
def standingsRound (t : Tournament) (round : Nat) (prev : Nat → Nat × Nat) :
    List PlayerStanding × (Nat → Nat × Nat) :=
  t.players.foldl
    (fun acc player =>
      let p := acc.snd player.id
      let round_score := roundScoreAt player round
      let standing : PlayerStanding :=
        { player_id := player.id, score := p.fst + round_score,
          buchholz := 0, median_buchholz := 0, cut_one_buchholz := 0,
          progressive := p.snd + (p.fst + round_score) }
      (acc.fst ++ [standing],
       fun id => if id = player.id then
           (p.fst + round_score, p.snd + standing.progressive)
         else acc.snd id))
    ([], prev)

/-- Fill in the three Buchholz columns of one standing for rounds `0..=round`. -/
def buchholzFill (t : Tournament) (round : Nat) (st : PlayerStanding) : PlayerStanding :=
  let player := t.getPlayer st.player_id
  let opponents : List Player :=
    (player.history.take (round + 1)).filterMap
      (fun item =>
        match item with
        | .Game opponent_id _ _ => t.findPlayer opponent_id
        | _ => none)
  let opponent_scores : List Nat :=
    List.insertionSort (· ≤ ·)
      (opponents.map (fun q => ((q.history.take (round + 1)).map itemScore).sum))
  { st with
    buchholz := opponent_scores.sum,
    cut_one_buchholz := (opponent_scores.drop 1).sum,
    median_buchholz :=
      if opponent_scores ≠ [] then ((opponent_scores.dropLast).drop 1).sum else 0 }

def standingCmp (a b : PlayerStanding) : Ordering :=
  ((((compare b.score a.score).then
      (compare b.median_buchholz a.median_buchholz)).then
      (compare b.cut_one_buchholz a.cut_one_buchholz)).then
      (compare b.buchholz a.buchholz)).then
    (compare b.progressive a.progressive)

def standingLe (a b : PlayerStanding) : Prop :=
  standingCmp a b ≠ Ordering.gt

instance : DecidableRel standingLe := by
  intro a b
  unfold standingLe
  infer_instance

def standingsAux (t : Tournament) : Nat → Nat → (Nat → Nat × Nat) →
    List (List PlayerStanding)
  | 0, _, _ => []
  | n + 1, round, prev =>
    let rp := standingsRound t round prev
    let ranking := rp.fst.map (buchholzFill t round)
    List.insertionSort standingLe ranking :: standingsAux t n (round + 1) rp.snd

def Tournament.standings (t : Tournament) : List (List PlayerStanding) :=
  standingsAux t t.current_round 0 (fun _ => (0, 0))

/- ----------------- service layer: inactive scores, next pairings, results ----------------- -/

def parsePlayerResultStrict (s : String) : Option PlayerResult :=
  match s with
  | "win" => some .Win
  | "draw" => some .Draw
  | "loss" => some .Lose
  | _ => none

def inactiveScoresGo : List (Nat × String) → List (Nat × PlayerResult) →
    Except AppError (List (Nat × PlayerResult))
  | [], acc => .ok acc
  | (player_id, result_str) :: rest, acc =>
    match parsePlayerResultStrict result_str with
    | none => .error (.DuplicatePlayerResult player_id)
    | some result =>
      if (scoresGet acc player_id).isSome then
        .error (.DuplicatePlayerResult player_id)
      else inactiveScoresGo rest (acc ++ [(player_id, result)])

def inactive_scores_try_from (value : List (Nat × String)) :
    Except AppError (List (Nat × PlayerResult)) :=
  inactiveScoresGo value []

/-- `generate_next_pairings` after permission checking and tournament loading;
`none` models the Rust panic on `results.last().unwrap()`. -/
def generate_next_pairings (t : Tournament) (payload : NextPairings) :
    Option (Except AppError NewPairings) :=
  match inactive_scores_try_from payload.inactive_scores with
  | .error e => some (.error e)
  | .ok scores =>
    if t.players.length < 2 then some (.error .InsufficientPlayers)
    else if t.current_round = 0 then
      let color :=
        match payload.first_color with
        | some s => if s = "black" then Color.Black
                    else if s = "white" then Color.White else Color.White
        | none => Color.White
      some (t.generate_first_round_pairings scores color)
    else
      match t.results.getLast? with
      | none => none
      | some last_round =>
        if last_round.any (fun r => r = GameResult.Ongoing) then
          some (.error .RoundNotDone)
        else some (t.generate_next_round_pairings scores)

/-- `update_result` after permission checking and tournament loading; an `ok`
carries the `(round, board, result)` that would be persisted. -/
def update_result (t : Tournament) (payload : RoundResult) :
    Except AppError (Nat × Nat × GameResult) :=
  let result := GameResult.from_str payload.result
  if result = GameResult.Ongoing then .error .Unknown
  else if t.pairings = [] then .error .TournamentNotStarted
  else
    match t.results.get? payload.round_id with
    | none => .error (.RoundNotFound payload.round_id)
    | some round =>
      if (round.get? payload.board_id).isNone then .error .Unknown
      else if payload.round_id < t.current_round - 1 then
        .error (.InvalidRound payload.round_id)
      else .ok (payload.round_id, payload.board_id, result)

/- ----------------- Tournament Model assembly (From<TournamentDbData>) ----------------- -/

structure DbRegistration where
  id : Nat
  floats : Nat
  status : String
  player_id : Nat
  rating : Nat
  first_name : String
  last_name : String
  federation : Option String
  fide_id : Option Nat
  title : String
deriving DecidableEq, Repr

structure DbPairing where
  id : Nat
  tournament_id : Nat
  round_number : Nat
  board_number : Nat
  white_id : Nat
  black_id : Nat
  result : Option String
  pgn : Option String
deriving DecidableEq, Repr

structure DbPairingGap where
  id : Nat
  player_id : Nat
  tournament_id : Nat
  round_id : Nat
  score : Nat
  is_bye : Bool
deriving DecidableEq, Repr

structure DbTournament where
  id : Nat
  name : String
  current_round : Nat
  num_rounds : Nat
  time_category : String
  start_date : Nat
  federation : String
  username : String
  user_id : Nat
  updated_at : Nat
  end_date : Option Nat
  url : Option String
deriving DecidableEq, Repr

structure TournamentDbData where
  tournament : DbTournament
  players : List DbRegistration
  pairings : List DbPairing
  pairing_gaps : List DbPairingGap
deriving DecidableEq, Repr

def initPlayer (current_round : Nat) (p : DbRegistration) : Player :=
  { id := p.id, db_id := p.player_id,
    name := p.last_name ++ ", " ++ p.first_name,
    rating := p.rating, title := Title.from_str p.title,
    history := List.replicate current_round (HistoryItem.NotPaired 0),
    floats := p.floats, fide_id := p.fide_id, federation := p.federation,
    status := PlayerStatus.from_str p.status }

/-- `players.get_mut(&id).unwrap(); player.history[round] = item`; `none`
models the panic on an unregistered id or an out-of-range round. -/
def setPlayerHistory : List Player → Nat → Nat → HistoryItem → Option (List Player)
  | [], _, _, _ => none
  | p :: rest, id, round, item =>
    if p.id = id then
      if round < p.history.length then
        some ({ p with history := p.history.set round item } :: rest)
      else none
    else (setPlayerHistory rest id round item).map (p :: ·)

/-- `vec[i].push(x)`; `none` models the out-of-bounds panic. -/
def pushAt {α : Type} (l : List (List α)) (i : Nat) (x : α) : Option (List (List α)) :=
  if h : i < l.length then some (l.set i (l.get ⟨i, h⟩ ++ [x])) else none

def applyGaps : List Player → List (List Nat) → List DbPairingGap →
    Option (List Player × List (List Nat))
  | players, byes, [] => some (players, byes)
  | players, byes, gap :: rest =>
    if gap.is_bye then
      match pushAt byes gap.round_id gap.player_id,
          setPlayerHistory players gap.player_id gap.round_id HistoryItem.Bye with
      | some byes', some players' => applyGaps players' byes' rest
      | _, _ => none
    else
      match setPlayerHistory players gap.player_id gap.round_id
          (HistoryItem.NotPaired gap.score) with
      | some players' => applyGaps players' byes rest
      | none => none

def applyPairings : List Player → List (List (Nat × GameResult)) → List DbPairing →
    Option (List Player × List (List (Nat × GameResult)))
  | players, results, [] => some (players, results)
  | players, results, pairing :: rest =>
    let result :=
      match pairing.result with
      | some s => GameResult.from_str s
      | none => GameResult.Ongoing
    (pushAt results pairing.round_number (pairing.board_number, result)).bind
      (fun results' =>
        (setPlayerHistory players pairing.white_id pairing.round_number
            (HistoryItem.Game pairing.black_id Color.White result)).bind
          (fun players' =>
            (setPlayerHistory players' pairing.black_id pairing.round_number
                (HistoryItem.Game pairing.white_id Color.Black result)).bind
              (fun players'' => applyPairings players'' results' rest)))

def buildRoundPairings : List (List (Nat × Nat × Nat)) → List DbPairing →
    Option (List (List (Nat × Nat × Nat)))
  | acc, [] => some acc
  | acc, pairing :: rest =>
    match pushAt acc pairing.round_number
        (pairing.board_number, pairing.white_id, pairing.black_id) with
    | none => none
    | some acc' => buildRoundPairings acc' rest

def boardNumLe2 (a b : Nat × GameResult) : Prop := a.fst ≤ b.fst

instance : DecidableRel boardNumLe2 := by
  intro a b
  unfold boardNumLe2
  infer_instance

def boardNumLe3 (a b : Nat × Nat × Nat) : Prop := a.fst ≤ b.fst

instance : DecidableRel boardNumLe3 := by
  intro a b
  unfold boardNumLe3
  infer_instance

/-- `impl From<TournamentDbData> for Tournament`; `none` models a panic. -/
def fromDbData (value : TournamentDbData) : Option Tournament :=
  let cr := value.tournament.current_round
  let players0 := value.players.map (initPlayer cr)
  match applyGaps players0 (List.replicate cr []) value.pairing_gaps with
  | none => none
  | some pb =>
    match applyPairings pb.fst (List.replicate cr []) value.pairings with
    | none => none
    | some pr =>
      match buildRoundPairings (List.replicate cr []) value.pairings with
      | none => none
      | some rps =>
        let round_pairings :=
          rps.map (fun round => List.insertionSort boardNumLe3 round)
        let results :=
          pr.snd.map (fun round => List.insertionSort boardNumLe2 round)
        some
          { id := value.tournament.id,
            name := value.tournament.name,
            num_rounds := value.tournament.num_rounds,
            time_category := value.tournament.time_category,
            players := pr.fst,
            pairings :=
              round_pairings.map
                (fun round => round.map (fun e => (e.snd.fst, e.snd.snd))),
            byes := pb.snd,
            results := results.map (fun round => round.map Prod.snd),
            federation := value.tournament.federation,
            start_date := value.tournament.start_date,
            end_date := value.tournament.end_date,
            url := value.tournament.url,
            user_id := value.tournament.user_id,
            username := value.tournament.username,
            updated_at := value.tournament.updated_at }

/-- The precondition of claim C10: every gap row and pairing row references a
registered player and a round strictly below `current_round`. -/
def dbRowsOk (d : TournamentDbData) : Prop :=
  (∀ gap ∈ d.pairing_gaps,
    gap.player_id ∈ d.players.map DbRegistration.id ∧
    gap.round_id < d.tournament.current_round) ∧
  (∀ p ∈ d.pairings,
    p.white_id ∈ d.players.map DbRegistration.id ∧
    p.black_id ∈ d.players.map DbRegistration.id ∧
    p.round_number < d.tournament.current_round)

/- ----------------- Concrete tournaments used by counterexamples and witnesses ----------------- -/

def mkPlayer (id rating : Nat) (history : List HistoryItem) (status : PlayerStatus) :
    Player :=
  { id := id, db_id := id, name := "", rating := rating, title := .Untitled,
    history := history, floats := 0, fide_id := none, federation := none,
    status := status }

def mkTournament (players : List Player) (pairings : List (List (Nat × Nat)))
    (byes : List (List Nat)) (results : List (List GameResult)) (num_rounds : Nat) :
    Tournament :=
  { id := 7, name := "T", time_category := "standard", players := players,
    pairings := pairings, byes := byes, results := results,
    num_rounds := num_rounds, start_date := 0, federation := "FIDE",
    user_id := 0, username := "u", updated_at := 0, end_date := none, url := none }

/-- One player, three generated rounds, a bye in each round. -/
def exC1 : Tournament :=
  mkTournament [mkPlayer 1 1500 [.Bye, .Bye, .Bye] .Active]
    [[], [], []] [[1], [1], [1]] [[], [], []] 5

/-- One Active and one Inactive player, both on score 0. -/
def exC2 : Tournament :=
  mkTournament
    [mkPlayer 1 1500 [] .Active, mkPlayer 2 1400 [] .Inactive]
    [] [] [] 2

/-- Two registered players, both Inactive, before round 1. -/
def exC3 : Tournament :=
  mkTournament
    [mkPlayer 1 1500 [] .Inactive, mkPlayer 2 1400 [] .Inactive]
    [] [] [] 2

/-- Four players after two rounds; players 1 and 2 have both played White
twice (against 3 and 4, who are now Inactive) and never faced each other. -/
def exC4 : Tournament :=
  mkTournament
    [mkPlayer 1 2000 [.Game 3 .White .WhiteWins, .Game 4 .White .WhiteWins] .Active,
     mkPlayer 2 1900 [.Game 4 .White .WhiteWins, .Game 3 .White .WhiteWins] .Active,
     mkPlayer 3 1800 [.Game 1 .Black .WhiteWins, .Game 2 .Black .WhiteWins] .Inactive,
     mkPlayer 4 1700 [.Game 2 .Black .WhiteWins, .Game 1 .Black .WhiteWins] .Inactive]
    [[(1, 3), (2, 4)], [(1, 4), (2, 3)]]
    [[], []]
    [[.WhiteWins, .WhiteWins], [.WhiteWins, .WhiteWins]] 4

/-- Two players tied on every sort key, one generated round; `exC5b` is the
same map contents with the opposite iteration order. -/
def exC5a : Tournament :=
  mkTournament
    [mkPlayer 1 1500 [.NotPaired 0] .Active, mkPlayer 2 1500 [.NotPaired 0] .Active]
    [[]] [[]] [[]] 2

def exC5b : Tournament :=
  mkTournament
    [mkPlayer 2 1500 [.NotPaired 0] .Active, mkPlayer 1 1500 [.NotPaired 0] .Active]
    [[]] [[]] [[]] 2

/-- Three active players with equal byes and scores before round 1. -/
def exC6 : Tournament :=
  mkTournament
    [mkPlayer 1 1500 [] .Active, mkPlayer 2 1400 [] .Active,
     mkPlayer 3 1300 [] .Active]
    [] [] [] 2

/-- `exC5a` with only the display name changed. -/
def exC5c : Tournament := { exC5a with name := "U" }

/- ----------------- Specification-side definitions ----------------- -/

/-- Which color a pair `(white, black)` gives to a player id. -/
def assignedColor (res : Nat × Nat) (id : Nat) : Option Color :=
  if id = res.fst then some Color.White
  else if id = res.snd then some Color.Black
  else none

/-- The color-assignment contract of claim C8, case by case on the two
players' most recent colors. -/
def colorSpecOk (t : Tournament) (pair res : Nat × Nat) : Prop :=
  let p1 := t.getPlayer pair.fst
  let p2 := t.getPlayer pair.snd
  match p1.color_history.getLast?, p2.color_history.getLast? with
  | none, none => res = pair
  | none, some c2 => assignedColor res p2.id = some c2.other
  | some c1, none => assignedColor res p1.id = some c1.other
  | some c1, some c2 =>
    if c1 ≠ c2 then
      (c1 = Color.White → assignedColor res p1.id = some Color.Black) ∧
      (c2 = Color.White → assignedColor res p2.id = some Color.Black)
    else
      (colorBalance p1.color_history > colorBalance p2.color_history →
        assignedColor res p1.id = some Color.Black) ∧
      (colorBalance p2.color_history > colorBalance p1.color_history →
        assignedColor res p2.id = some Color.Black) ∧
      (colorBalance p1.color_history = colorBalance p2.color_history →
        (t.player_tpn p1.id < t.player_tpn p2.id →
          assignedColor res p1.id = some Color.Black) ∧
        (t.player_tpn p2.id < t.player_tpn p1.id →
          assignedColor res p2.id = some Color.Black))

/-- The non-rejected branch of `edge_weight_spec`. -/
def edgeWeightSpecBody (p1 p2 : Player) (group_ranks : Nat × Nat)
    (group_len : Nat × Nat) (min_score : Nat) : Int :=
  let s1 := p1.tournament_score
  let s2 := p2.tournament_score
  let diff := Nat.dist s1 s2
  5000
    - (if diff = 0 then 0
       else if diff = 1 then 80
       else if diff = 2 then 570
       else if diff = 3 then 1350
       else if diff = 4 then 2250
       else 2250 + 200 * (diff : Int))
    + 5 * ((s1 : Int) + (s2 : Int))
    - (if (p1.color_history.getLast?).isSome ∧
          p1.color_history.getLast? = p2.color_history.getLast? then 10 else 0)
    - (if s1 = s2 then
         (5 : Int) * ((((Nat.dist group_ranks.fst group_ranks.snd : Nat) : Int) -
               ((group_len.fst / 2 : Nat) : Int)).natAbs : Int)
       else 0)
    - 20 * ((p1.floats : Int) + (p2.floats : Int))
    + (if s1 ≠ min_score ∧ s2 ≠ min_score then
         200 / ((Nat.max group_len.fst group_len.snd : Nat) : Int)
       else 0)
    - (if s1 ≠ s2 then
         (if s1 < s2 then
            10 * (((group_len.snd - 1 : Nat) : Int) - (group_ranks.snd : Int))
          else
            10 * (((group_len.fst - 1 : Nat) : Int) - (group_ranks.fst : Int)))
       else 0)

/-- The edge-weight contract exactly as claim C7 states it: minimum
representable integer on the doubly-repeated identical color tails, the
arithmetic formula otherwise. -/
def edge_weight_spec (p1 p2 : Player) (group_ranks : Nat × Nat)
    (group_len : Nat × Nat) (min_score : Nat) : Int :=
  match p1.color_history.reverse, p2.color_history.reverse with
  | b1 :: a1 :: _, b2 :: a2 :: _ =>
    if a1 = b1 ∧ a1 = a2 ∧ b1 = b2 then isizeMIN
    else edgeWeightSpecBody p1 p2 group_ranks group_len min_score
  | _, _ => edgeWeightSpecBody p1 p2 group_ranks group_len min_score

/-- The decision procedure of claim C9, check by check in the claim's order. -/
def update_result_spec (t : Tournament) (payload : RoundResult) :
    Except AppError (Nat × Nat × GameResult) :=
  let result := GameResult.from_str payload.result
  if result = GameResult.Ongoing then .error .Unknown
  else if t.pairings.length = 0 then .error .TournamentNotStarted
  else if t.results.length ≤ payload.round_id then
    .error (.RoundNotFound payload.round_id)
  else if (t.results.getD payload.round_id []).length ≤ payload.board_id then
    .error .Unknown
  else if payload.round_id < t.current_round - 1 then
    .error (.InvalidRound payload.round_id)
  else .ok (payload.round_id, payload.board_id, result)

deriving instance DecidableEq for Except

/- ----------------- Claim theorems ----------------- -/

/-- C1: with a single player who scores 2 in each of three rounds, the
cumulative scores are 2, 4, 6, so the spec's progressive after round 3 is
2 + 4 + 6 = 12; `standings` reports 14, because the loop adds the whole
reported progressive (not the new cumulative score) into the carried
accumulator. -/
theorem c1_progressive_code_bug :
    exC1.standings.map (fun round => round.map PlayerStanding.score) =
      [[2], [4], [6]] ∧
    exC1.standings.map (fun round => round.map PlayerStanding.progressive) =
      [[2], [6], [14]] ∧
    (2 + 4 + 6 : Nat) = 12 ∧ (14 : Nat) ≠ 12 := by decide

/-- C2 counterexample: in `exC2` the score-0 group produced by
`group_players_by_score` contains player 2, whose status is Inactive, so the
partition does not cover exactly the Active players. -/
theorem c2_counterexample :
    exC2.group_players_by_score.map (fun g => (g.fst, g.snd.map Player.id)) =
      [(0, [1, 2])] ∧
    (exC2.getPlayer 2).status = PlayerStatus.Inactive ∧
    exC2.active_players.map Player.id = [1] := by decide

/-- C3 counterexample: `exC3` has two registered players, both Inactive, so
its Active set is empty on round 1; `generate_next_pairings` nevertheless
succeeds (with an empty pairing list and two inactive gap rows) instead of
returning `InsufficientPlayers`. -/
theorem c3_counterexample :
    exC3.active_players = [] ∧ exC3.current_round = 0 ∧
    generate_next_pairings exC3 ⟨none, []⟩ =
      some (.ok
        { round := 0, pairings := [],
          gaps := [⟨1, 7, 0, 0, false⟩, ⟨2, 7, 0, 0, false⟩],
          floats := [] }) := by decide

/-- C4 counterexample: `exC4` satisfies the history-length invariant and its
only feasible edge pairs players 1 and 2, both of whom just played White
twice; `generate_next_round_pairings` matches them anyway (the minimum-weight
edge is still an edge) and hands player 2 a third consecutive White. -/
theorem c4_counterexample :
    (∀ p ∈ exC4.players, p.history.length = exC4.current_round) ∧
    last2 (exC4.getPlayer 2).color_history = some (.White, .White) ∧
    exC4.generate_next_round_pairings [] =
      .ok
        { round := 2,
          pairings := [⟨7, 2, 0, 2, 1⟩],
          gaps := [⟨3, 7, 2, 0, false⟩, ⟨4, 7, 2, 0, false⟩],
          floats := [] } := by decide

/-- C5 counterexample: `exC5a` and `exC5b` hold the same player map contents
(same players, histories, pairings, byes, results) but in opposite iteration
orders, and `standings` returns the two fully-tied players in different
orders, so equal map contents alone do not determine the standings vector. -/
theorem c5_counterexample :
    exC5a.players.Perm exC5b.players ∧
    exC5a.pairings = exC5b.pairings ∧
    exC5a.byes = exC5b.byes ∧
    exC5a.results = exC5b.results ∧
    exC5a.num_rounds = exC5b.num_rounds ∧
    exC5a.standings ≠ exC5b.standings := by decide

theorem findPlayer_congr {t1 t2 : Tournament} (h : t1.players = t2.players) :
    t1.findPlayer = t2.findPlayer := by
  funext id
  unfold Tournament.findPlayer
  rw [h]

theorem getPlayer_congr {t1 t2 : Tournament} (h : t1.players = t2.players) :
    t1.getPlayer = t2.getPlayer := by
  funext id
  unfold Tournament.getPlayer
  rw [findPlayer_congr h]

theorem standingsRound_congr {t1 t2 : Tournament} (h : t1.players = t2.players) :
    standingsRound t1 = standingsRound t2 := by
  funext round prev
  unfold standingsRound
  rw [h]

theorem buchholzFill_congr {t1 t2 : Tournament} (h : t1.players = t2.players) :
    buchholzFill t1 = buchholzFill t2 := by
  funext round st
  unfold buchholzFill
  rw [getPlayer_congr h, findPlayer_congr h]

theorem standingsAux_congr {t1 t2 : Tournament} (h : t1.players = t2.players) :
    ∀ n round prev, standingsAux t1 n round prev = standingsAux t2 n round prev := by
  intro n
  induction n with
  | zero => intro round prev; rfl
  | succ m ih =>
    intro round prev
    unfold standingsAux
    rw [standingsRound_congr h, buchholzFill_congr h]
    simp only [ih]

/-- C5 (amended): `standings` reads only the player map (with its iteration
order) and the number of generated rounds; any two tournaments agreeing on
those — whatever their other fields — produce identical standings vectors. -/
theorem c5_standings_deterministic (t1 t2 : Tournament)
    (hp : t1.players = t2.players)
    (hr : t1.pairings.length = t2.pairings.length) :
    t1.standings = t2.standings := by
  unfold Tournament.standings Tournament.current_round
  rw [hr, standingsAux_congr hp]

/-- C5 witness: the determinism theorem applied to `exC5a` and the
name-changed copy `exC5c`. -/
theorem c5_witness : exC5a.standings = exC5c.standings :=
  c5_standings_deterministic exC5a exC5c rfl rfl

theorem inactiveScoresGo_error :
    ∀ (l : List (Nat × String)) (acc : List (Nat × PlayerResult)) (e : AppError),
      inactiveScoresGo l acc = .error e → ∃ id, e = .DuplicatePlayerResult id := by
  intro l
  induction l with
  | nil => intro acc e h; simp [inactiveScoresGo] at h
  | cons hd tl ih =>
    intro acc e h
    obtain ⟨pid, rstr⟩ := hd
    unfold inactiveScoresGo at h
    cases hp : parsePlayerResultStrict rstr with
    | none =>
      rw [hp] at h
      exact ⟨pid, by injection h with h'; exact h'.symm⟩
    | some result =>
      rw [hp] at h
      dsimp only at h
      split at h
      · exact ⟨pid, by injection h with h'; exact h'.symm⟩
      · exact ih _ _ h

theorem prepare_pairings_error {t : Tournament} {e : AppError}
    (h : t.prepare_pairings = .error e) : e = .TournamentEnded := by
  unfold Tournament.prepare_pairings at h
  by_cases hc : t.pairings.length = t.num_rounds
  · rw [if_pos hc] at h
    injection h with h'
    exact h'.symm
  · rw [if_neg hc] at h
    exact Except.noConfusion h

theorem first_round_not_insufficient (t : Tournament)
    (scores : List (Nat × PlayerResult)) (color : Color) :
    t.generate_first_round_pairings scores color ≠ .error .InsufficientPlayers := by
  unfold Tournament.generate_first_round_pairings
  cases hp : t.prepare_pairings with
  | error e =>
    intro h
    injection h with h'
    exact absurd (prepare_pairings_error hp) (by rw [h']; intro hx; cases hx)
  | ok val =>
    obtain ⟨prs, byesL, fl⟩ := val
    intro h
    exact Except.noConfusion h

theorem next_round_not_insufficient (t : Tournament)
    (scores : List (Nat × PlayerResult)) :
    t.generate_next_round_pairings scores ≠ .error .InsufficientPlayers := by
  unfold Tournament.generate_next_round_pairings
  cases hp : t.prepare_pairings with
  | error e =>
    intro h
    injection h with h'
    exact absurd (prepare_pairings_error hp) (by rw [h']; intro hx; cases hx)
  | ok val =>
    obtain ⟨prs, byesL, fl⟩ := val
    intro h
    dsimp only at h
    split at h
    · injection h with h'
      exact AppError.noConfusion h'
    · exact Except.noConfusion h

/-- C3 (amended): `generate_next_pairings` returns `InsufficientPlayers`
exactly when the inactive-scores payload parses and the number of registered
players — Active or not — is below two; the Active count and the round play
no role in this check. -/
theorem c3_insufficient_players_iff (t : Tournament) (payload : NextPairings) :
    generate_next_pairings t payload = some (.error .InsufficientPlayers) ↔
      ((inactive_scores_try_from payload.inactive_scores).isOk = true ∧
        t.players.length < 2) := by
  unfold generate_next_pairings
  cases hs : inactive_scores_try_from payload.inactive_scores with
  | error e =>
    obtain ⟨id, rfl⟩ :=
      inactiveScoresGo_error payload.inactive_scores [] e
        (by rw [← inactive_scores_try_from]; exact hs)
    simp [Except.isOk, Except.toBool]
  | ok scores =>
    dsimp only
    by_cases hl : t.players.length < 2
    · simp [hl, Except.isOk, Except.toBool]
    · rw [if_neg hl]
      simp only [Except.isOk, Except.toBool, hl, and_false, iff_false]
      by_cases hr : t.current_round = 0
      · rw [if_pos hr]
        intro h
        rw [Option.some_inj] at h
        exact first_round_not_insufficient t scores _ h
      · rw [if_neg hr]
        cases hlast : t.results.getLast? with
        | none => intro h; exact Option.noConfusion h
        | some last_round =>
          dsimp only
          by_cases ho : last_round.any (fun r => r = GameResult.Ongoing) = true
          · rw [if_pos ho]
            intro h
            rw [Option.some_inj] at h
            exact AppError.noConfusion (Except.error.inj h)
          · rw [if_neg ho]
            intro h
            rw [Option.some_inj] at h
            exact next_round_not_insufficient t scores h

/-- C9: `update_result` implements exactly the claim's decision procedure:
reject an `Ongoing` parse with `Unknown`, then `TournamentNotStarted` on an
empty pairing list, `RoundNotFound` on an out-of-range round, `Unknown` on a
missing board, `InvalidRound` exactly when `round_id < current_round - 1`,
and otherwise return the `(round, board, result)` to persist; every error
path persists nothing. -/
theorem c9_update_result_spec (t : Tournament) (payload : RoundResult) :
    update_result t payload = update_result_spec t payload := by
  unfold update_result update_result_spec
  by_cases h1 : GameResult.from_str payload.result = GameResult.Ongoing
  · simp only [if_pos h1]
  · simp only [if_neg h1]
    by_cases h2 : t.pairings = []
    · simp only [List.length_eq_zero, if_pos h2]
    · simp only [List.length_eq_zero, if_neg h2]
      cases hg : t.results.get? payload.round_id with
      | none =>
        have hle : t.results.length ≤ payload.round_id := List.get?_eq_none.mp hg
        dsimp only
        simp only [if_pos hle]
      | some round =>
        obtain ⟨hlt, -⟩ := List.get?_eq_some.mp hg
        dsimp only
        have hnle : ¬ (t.results.length ≤ payload.round_id) := by omega
        simp only [if_neg hnle]
        have hgd : t.results.getD payload.round_id [] = round := by
          rw [List.getD_eq_get?, hg]
          rfl
        rw [hgd]
        by_cases hb : (round.get? payload.board_id).isNone = true
        · have hble : round.length ≤ payload.board_id :=
            List.get?_eq_none.mp (Option.isNone_iff_eq_none.mp hb)
          simp only [if_pos hb, if_pos hble]
        · have hbgt : ¬ (round.length ≤ payload.board_id) := fun hle =>
            hb (Option.isNone_iff_eq_none.mpr (List.get?_eq_none.mpr hle))
          simp only [if_neg hb, if_neg hbgt]

theorem scorePenaltyOf_eq (d : Nat) :
    scorePenaltyOf d =
      (if d = 0 then 0
       else if d = 1 then 80
       else if d = 2 then 570
       else if d = 3 then 1350
       else if d = 4 then 2250
       else 2250 + 200 * (d : Int)) := by
  match d with
  | 0 => norm_num [scorePenaltyOf]
  | 1 => norm_num [scorePenaltyOf]
  | 2 => norm_num [scorePenaltyOf]
  | 3 => norm_num [scorePenaltyOf]
  | 4 => norm_num [scorePenaltyOf]
  | (n + 5) =>
    rw [show scorePenaltyOf (n + 5) = 2250 + ((n + 5 : Nat) : Int) * 200 from rfl,
      if_neg (by omega), if_neg (by omega), if_neg (by omega), if_neg (by omega),
      if_neg (by omega)]
    push_cast
    ring

theorem colorPenaltyOf_eq (c1 c2 : Option Color) :
    colorPenaltyOf c1 c2 =
      (if c1.isSome = true ∧ c1 = c2 then (10 : Int) else 0) := by
  cases c1 <;> cases c2 <;> simp [colorPenaltyOf, Option.isSome]

theorem edgeWeightBody_eq_spec (p1 p2 : Player) (group_ranks group_len : Nat × Nat)
    (min_score : Nat) :
    edgeWeightBody p1 p2 group_ranks group_len min_score =
      edgeWeightSpecBody p1 p2 group_ranks group_len min_score := by
  unfold edgeWeightBody edgeWeightSpecBody
  dsimp only
  rw [scorePenaltyOf_eq, colorPenaltyOf_eq]
  by_cases hS : p1.tournament_score = p2.tournament_score
  · simp only [if_pos hS, if_neg (not_not_intro hS)]
    by_cases hI : p1.tournament_score ≠ min_score ∧ p2.tournament_score ≠ min_score
    · simp only [if_pos hI]
      push_cast
      ring
    · simp only [if_neg hI]
      push_cast
      ring
  · simp only [if_neg hS, if_pos hS]
    by_cases hL : p1.tournament_score < p2.tournament_score
    · simp only [if_pos hL]
      by_cases hI : p1.tournament_score ≠ min_score ∧ p2.tournament_score ≠ min_score
      · simp only [if_pos hI]
        push_cast
        ring
      · simp only [if_neg hI]
        push_cast
        ring
    · simp only [if_neg hL]
      by_cases hI : p1.tournament_score ≠ min_score ∧ p2.tournament_score ≠ min_score
      · simp only [if_pos hI]
        push_cast
        ring
      · simp only [if_neg hI]
        push_cast
        ring

/-- C7: `edge_weight` equals the claim's formula for every pair of players
and every choice of group ranks, group sizes and minimum score: the minimum
representable integer on the doubly-repeated identical color tails, and
otherwise 5000 minus the score penalty, plus 5(s1+s2), minus the same-color
penalty, minus the half-pairing deviation, minus the float penalty, plus the
isolation bonus, minus the float-rank penalty. -/
theorem c7_edge_weight_formula (p1 p2 : Player) (group_ranks group_len : Nat × Nat)
    (min_score : Nat) :
    edge_weight p1 p2 group_ranks group_len min_score =
      edge_weight_spec p1 p2 group_ranks group_len min_score := by
  unfold edge_weight edge_weight_spec last2
  rcases hr1 : p1.color_history.reverse with _ | ⟨b1, _ | ⟨a1, r1⟩⟩ <;>
    rcases hr2 : p2.color_history.reverse with _ | ⟨b2, _ | ⟨a2, r2⟩⟩ <;>
    dsimp only <;>
    try { exact edgeWeightBody_eq_spec p1 p2 group_ranks group_len min_score }
  simp only [Prod.mk.injEq]
  by_cases hcond : a1 = b1 ∧ a1 = a2 ∧ b1 = b2
  · rw [if_pos hcond, if_pos hcond]
  · rw [if_neg hcond, if_neg hcond]
    exact edgeWeightBody_eq_spec p1 p2 group_ranks group_len min_score

theorem findPlayer_id {t : Tournament} {id : Nat} {q : Player}
    (h : t.findPlayer id = some q) : q.id = id := by
  unfold Tournament.findPlayer at h
  simpa using List.find?_some h

theorem getPlayer_of_findPlayer {t : Tournament} {id : Nat} {q : Player}
    (h : t.findPlayer id = some q) : t.getPlayer id = q := by
  unfold Tournament.getPlayer
  rw [h]
  rfl

/-- C8: the per-pair color assignment of `generate_next_round_pairings`
satisfies the claim's case analysis: a lone prior color gets flipped, on
differing last colors the last-White player gets Black, on equal last colors
the higher color balance gets Black with ties broken toward the lower TPN,
and a colorless pair keeps its order. -/
theorem c8_color_assignment (t : Tournament) (pair : Nat × Nat) (q1 q2 : Player)
    (h1 : t.findPlayer pair.fst = some q1) (h2 : t.findPlayer pair.snd = some q2)
    (hpair : pair.fst ≠ pair.snd) :
    colorSpecOk t pair (assignPairColors t pair) := by
  have hg1 : t.getPlayer pair.fst = q1 := getPlayer_of_findPlayer h1
  have hg2 : t.getPlayer pair.snd = q2 := getPlayer_of_findPlayer h2
  have hid1 : q1.id = pair.fst := findPlayer_id h1
  have hid2 : q2.id = pair.snd := findPlayer_id h2
  have hne : q1.id ≠ q2.id := by rw [hid1, hid2]; exact hpair
  have hpair' : pair.snd ≠ pair.fst := fun h => hpair h.symm
  unfold colorSpecOk assignPairColors
  rw [hg1, hg2]
  dsimp only
  cases hc1 : q1.color_history.getLast? with
  | none =>
    cases hc2 : q2.color_history.getLast? with
    | none => rfl
    | some c2 =>
      cases c2 <;>
        simp [assignedColor, Color.other, hid1, hid2, hpair, hpair', hne]
  | some c1 =>
    cases hc2 : q2.color_history.getLast? with
    | none =>
      cases c1 <;>
        simp [assignedColor, Color.other, hid1, hid2, hpair, hpair', hne]
    | some c2 =>
      by_cases hcc : c1 = c2
      · subst hcc
        dsimp only
        rw [if_neg (by simp), if_pos rfl]
        simp only [ne_eq, not_true_eq_false, false_and, if_false, if_pos rfl]
        refine ⟨?_, ?_, ?_⟩
        · intro hbal
          rw [if_pos hbal]
          simp [assignedColor, hne]
        · intro hbal
          rw [if_neg (by omega), if_neg (by omega)]
          simp [assignedColor, hid1, hid2, hpair']
        · intro hbal
          constructor
          · intro htpn
            rw [if_neg (by omega), if_pos ⟨hbal, htpn⟩]
            simp [assignedColor, hne]
          · intro htpn
            rw [if_neg (by omega), if_neg (by omega)]
            simp [assignedColor, hid1, hid2, hpair']
      · cases c1 <;> cases c2 <;>
          simp_all [assignedColor, Color.other, hid1, hid2, hpair, hpair', hne]

/-- C4 (amended): the three-in-a-row protection that actually holds: whenever
the two matched players' most recent colors are not both present and equal,
`generate_next_round_pairings`' color step gives every player with a prior
color the opposite of their last color, so no third consecutive color can
arise from such pairs. When both last colors are equal (as in the forced
minimum-weight pairing of the counterexample) one player necessarily repeats
their color, and the repeat can be their third. -/
theorem c4_flip_unless_equal_last (t : Tournament) (pair : Nat × Nat)
    (q1 q2 : Player)
    (h1 : t.findPlayer pair.fst = some q1) (h2 : t.findPlayer pair.snd = some q2)
    (hpair : pair.fst ≠ pair.snd)
    (hboth : ¬ ∃ c, q1.color_history.getLast? = some c ∧
                    q2.color_history.getLast? = some c) :
    (∀ c, q1.color_history.getLast? = some c →
      assignedColor (assignPairColors t pair) q1.id = some c.other) ∧
    (∀ c, q2.color_history.getLast? = some c →
      assignedColor (assignPairColors t pair) q2.id = some c.other) := by
  have hg1 : t.getPlayer pair.fst = q1 := getPlayer_of_findPlayer h1
  have hg2 : t.getPlayer pair.snd = q2 := getPlayer_of_findPlayer h2
  have hid1 : q1.id = pair.fst := findPlayer_id h1
  have hid2 : q2.id = pair.snd := findPlayer_id h2
  have hne : q1.id ≠ q2.id := by rw [hid1, hid2]; exact hpair
  have hne' : q2.id ≠ q1.id := fun h => hne h.symm
  have hpair' : pair.snd ≠ pair.fst := fun h => hpair h.symm
  unfold assignPairColors
  rw [hg1, hg2]
  dsimp only
  cases hc1 : q1.color_history.getLast? with
  | none =>
    cases hc2 : q2.color_history.getLast? with
    | none =>
      constructor <;> intro c hc <;> exact Option.noConfusion hc
    | some c2 =>
      cases c2 <;>
        simp_all [assignedColor, Color.other, hid1, hid2, hpair, hpair', hne, hne']
  | some c1 =>
    cases hc2 : q2.color_history.getLast? with
    | none =>
      cases c1 <;>
        simp_all [assignedColor, Color.other, hid1, hid2, hpair, hpair', hne, hne']
    | some c2 =>
      have hcc : c1 ≠ c2 := fun h => hboth ⟨c1, hc1, h ▸ hc2⟩
      cases c1 <;> cases c2 <;>
        simp_all [assignedColor, Color.other, hid1, hid2, hpair, hpair', hne, hne']

/-- C4 witness: the amended theorem applied to `exC4` and the cross pair
(1, 3), whose last colors are White and Black. -/
theorem c4_witness :
    ((1 : Nat) ≠ (3 : Nat)) ∧
    ((∀ c, (exC4.getPlayer 1).color_history.getLast? = some c →
        assignedColor (assignPairColors exC4 (1, 3)) (exC4.getPlayer 1).id =
          some c.other) ∧
      (∀ c, (exC4.getPlayer 3).color_history.getLast? = some c →
        assignedColor (assignPairColors exC4 (1, 3)) (exC4.getPlayer 3).id =
          some c.other)) :=
  ⟨by decide,
    c4_flip_unless_equal_last exC4 (1, 3) (exC4.getPlayer 1) (exC4.getPlayer 3)
      (by decide) (by decide) (by decide) (by decide)⟩

/-- C8 witness: the color-assignment theorem applied to `exC4` and its
matched pair (1, 2). -/
theorem c8_witness : colorSpecOk exC4 (1, 2) (assignPairColors exC4 (1, 2)) :=
  c8_color_assignment exC4 (1, 2) (exC4.getPlayer 1) (exC4.getPlayer 2)
    (by decide) (by decide) (by decide)

theorem insertGroup_flat_perm (gs : List (Nat × List Player)) (s : Nat) (q : Player) :
    ((insertGroup gs s q).flatMap (fun g => g.snd)).Perm
      ((gs.flatMap (fun g => g.snd)) ++ [q]) := by
  induction gs with
  | nil => simp [insertGroup]
  | cons hd rest ih =>
    obtain ⟨s', g⟩ := hd
    by_cases hs : s' = s
    · simp only [insertGroup, if_pos hs, List.flatMap_cons]
      rw [List.append_assoc, List.append_assoc]
      exact (List.Perm.append_left g (List.perm_append_comm)).trans (List.Perm.refl _)
    · simp only [insertGroup, if_neg hs, List.flatMap_cons]
      rw [List.append_assoc]
      exact List.Perm.append_left g ih

theorem foldl_insertGroup_flat_perm (l : List Player) :
    ∀ gs : List (Nat × List Player),
      ((l.foldl (fun gs p => insertGroup gs p.tournament_score p) gs).flatMap
          (fun g => g.snd)).Perm
        ((gs.flatMap (fun g => g.snd)) ++ l) := by
  induction l with
  | nil => intro gs; simp
  | cons p rest ih =>
    intro gs
    have step :=
      (insertGroup_flat_perm gs p.tournament_score p).append_right rest
    have assoc :
        ((gs.flatMap (fun g => g.snd)) ++ [p]) ++ rest =
          (gs.flatMap (fun g => g.snd)) ++ (p :: rest) := by
      rw [List.append_assoc]
      rfl
    exact ((ih _).trans step).trans (assoc ▸ List.Perm.refl _)

theorem map_sort_flat_perm (t : Tournament) (gs : List (Nat × List Player)) :
    ((gs.map (fun g => (g.fst, List.insertionSort (tpnLe t) g.snd))).flatMap
        (fun g => g.snd)).Perm (gs.flatMap (fun g => g.snd)) := by
  induction gs with
  | nil => simp
  | cons hd rest ih =>
    simp only [List.map_cons, List.flatMap_cons]
    exact (List.perm_insertionSort (tpnLe t) hd.snd).append ih

theorem insertGroup_inv {gs : List (Nat × List Player)} {s : Nat} {q : Player}
    (hinv : ∀ g ∈ gs, ∀ p ∈ g.snd, p.tournament_score = g.fst)
    (hq : q.tournament_score = s) :
    ∀ g ∈ insertGroup gs s q, ∀ p ∈ g.snd, p.tournament_score = g.fst := by
  induction gs with
  | nil =>
    intro g hg p hp
    simp only [insertGroup, List.mem_singleton] at hg
    subst hg
    simp only [List.mem_singleton] at hp
    subst hp
    exact hq
  | cons hd rest ih =>
    obtain ⟨s', gl⟩ := hd
    intro g hg p hp
    by_cases hs : s' = s
    · simp only [insertGroup, if_pos hs, List.mem_cons] at hg
      rcases hg with hg | hg
      · subst hg
        simp only [List.mem_append, List.mem_singleton] at hp
        rcases hp with hp | hp
        · exact hinv (s', gl) (List.mem_cons_self _ _) p hp
        · subst hp
          rw [hq, hs]
      · exact hinv g (List.mem_cons_of_mem _ hg) p hp
    · simp only [insertGroup, if_neg hs, List.mem_cons] at hg
      rcases hg with hg | hg
      · subst hg
        exact hinv (s', gl) (List.mem_cons_self _ _) p hp
      · exact ih (fun g hg => hinv g (List.mem_cons_of_mem _ hg)) g hg p hp

theorem foldl_insertGroup_inv (l : List Player) :
    ∀ gs : List (Nat × List Player),
      (∀ g ∈ gs, ∀ p ∈ g.snd, p.tournament_score = g.fst) →
      ∀ g ∈ l.foldl (fun gs p => insertGroup gs p.tournament_score p) gs,
        ∀ p ∈ g.snd, p.tournament_score = g.fst := by
  induction l with
  | nil => intro gs hinv; exact hinv
  | cons q rest ih =>
    intro gs hinv
    exact ih _ (insertGroup_inv hinv rfl)

/-- C2 (amended): `group_players_by_score` partitions *all* registered
players — Active and Inactive alike — by tournament score: the groups'
members taken together are a permutation of the player list, every member of
a group carries that group's score, and each group is sorted by TPN
ascending. (The claim's restriction to Active players fails; see the
counterexample.) -/
theorem c2_groups_cover_all_players (t : Tournament) :
    ((t.group_players_by_score.flatMap (fun g => g.snd)).Perm t.players) ∧
    (∀ g ∈ t.group_players_by_score, ∀ p ∈ g.snd, p.tournament_score = g.fst) ∧
    (∀ g ∈ t.group_players_by_score, g.snd.Pairwise (tpnLe t)) := by
  haveI htot : IsTotal Player (tpnLe t) :=
    ⟨fun a b => Nat.le_total (t.player_tpn a.id) (t.player_tpn b.id)⟩
  haveI htr : IsTrans Player (tpnLe t) :=
    ⟨fun a b c hab hbc => Nat.le_trans hab hbc⟩
  unfold Tournament.group_players_by_score
  refine ⟨?_, ?_, ?_⟩
  · exact (map_sort_flat_perm t _).trans
      (((foldl_insertGroup_flat_perm t.players []).trans) (by simp))
  · intro g hg p hp
    simp only [List.mem_map] at hg
    obtain ⟨g0, hg0, rfl⟩ := hg
    have hp0 : p ∈ g0.snd :=
      (List.perm_insertionSort (tpnLe t) g0.snd).mem_iff.mp hp
    exact foldl_insertGroup_inv t.players [] (by simp) g0 hg0 p hp0
  · intro g hg
    simp only [List.mem_map] at hg
    obtain ⟨g0, hg0, rfl⟩ := hg
    exact List.sorted_insertionSort (tpnLe t) g0.snd

theorem then_ne_gt (o1 o2 : Ordering) :
    (o1.then o2) ≠ .gt ↔ (o1 = .lt ∨ (o1 = .eq ∧ o2 ≠ .gt)) := by
  cases o1 <;> simp [Ordering.then]

theorem byeLe_iff (t : Tournament) (a b : Player) :
    byeLe t a b ↔
      (b.byes < a.byes ∨
        (a.byes = b.byes ∧
          (b.tournament_score < a.tournament_score ∨
            (a.tournament_score = b.tournament_score ∧
              t.player_tpn a.id ≤ t.player_tpn b.id)))) := by
  unfold byeLe byeCmp
  rw [then_ne_gt, Ordering.then_eq_lt, Ordering.then_eq_eq]
  simp only [Nat.compare_eq_lt, Nat.compare_eq_eq, Nat.compare_eq_gt, ne_eq]
  omega

theorem pairwise_getLast {α : Type} {r : α → α → Prop} :
    ∀ {l : List α} {p : α}, l.Pairwise r → l.getLast? = some p →
      ∀ a ∈ l, a = p ∨ r a p := by
  intro l
  induction l with
  | nil => intro p _ h; exact Option.noConfusion h
  | cons x xs ih =>
    intro p hpw hlast a ha
    obtain ⟨hx, hxs⟩ := List.pairwise_cons.mp hpw
    cases xs with
    | nil =>
      simp only [List.getLast?_singleton, Option.some_inj] at hlast
      simp only [List.mem_singleton] at ha
      exact Or.inl (ha.trans hlast)
    | cons y ys =>
      rw [List.getLast?_cons_cons] at hlast
      have hpmem : p ∈ y :: ys := List.mem_of_mem_getLast? hlast
      rcases List.mem_cons.mp ha with ha | ha
      · exact Or.inr (ha ▸ hx p hpmem)
      · exact ih hxs hlast a ha

theorem player_tpn_inj {t : Tournament} {a b : Player}
    (ha : a ∈ t.players) (hb : b ∈ t.players)
    (h : t.player_tpn a.id = t.player_tpn b.id) : a.id = b.id := by
  unfold Tournament.player_tpn at h
  have hperm : (t.sortedByRating.map Player.id).Perm (t.players.map Player.id) :=
    (List.perm_insertionSort _ t.players).map Player.id
  have hamem : a.id ∈ t.sortedByRating.map Player.id :=
    hperm.mem_iff.mpr (List.mem_map_of_mem Player.id ha)
  have hbmem : b.id ∈ t.sortedByRating.map Player.id :=
    hperm.mem_iff.mpr (List.mem_map_of_mem Player.id hb)
  exact (List.indexOf_inj hamem hbmem).mp h

/-- C6: on success, `prepare_pairings` selects a bye exactly when the Active
count is odd, and the recipient is an Active player whom every other Active
player precedes in the composite order (more byes, or equal byes and higher
score, or equal byes and score and lower TPN) — i.e. the active player with
the fewest byes, then lowest score, then highest TPN. -/
theorem c6_bye_selection (t : Tournament)
    (hnodup : (t.players.map Player.id).Nodup)
    (prs : List (Nat × Nat)) (byesL floatsL : List Nat)
    (hok : t.prepare_pairings = .ok (prs, byesL, floatsL)) :
    (t.active_players.length % 2 = 0 → byesL = []) ∧
    (t.active_players.length % 2 ≠ 0 →
      ∃ p, p ∈ t.active_players ∧ byesL = [p.id] ∧
        ∀ a ∈ t.active_players, a ≠ p →
          (p.byes < a.byes ∨
            (a.byes = p.byes ∧
              (p.tournament_score < a.tournament_score ∨
                (a.tournament_score = p.tournament_score ∧
                  t.player_tpn a.id < t.player_tpn p.id))))) := by
  haveI htot : IsTotal Player (byeLe t) :=
    ⟨fun a b => by rw [byeLe_iff, byeLe_iff]; omega⟩
  haveI htr : IsTrans Player (byeLe t) :=
    ⟨fun a b c hab hbc => by
      rw [byeLe_iff] at hab hbc ⊢
      omega⟩
  have hbyes : byesL =
      (if t.active_players.length % 2 ≠ 0 then
        match t.byeSorted.getLast? with
        | some bottom => [bottom.id]
        | none => []
      else []) := by
    unfold Tournament.prepare_pairings at hok
    by_cases hc : t.pairings.length = t.num_rounds
    · rw [if_pos hc] at hok
      exact Except.noConfusion hok
    · rw [if_neg hc] at hok
      have h2 := Except.ok.inj hok
      rw [Prod.mk.injEq] at h2
      rw [Prod.mk.injEq] at h2
      exact h2.2.1.symm
  have hperm : t.byeSorted.Perm t.active_players :=
    List.perm_insertionSort (byeLe t) t.active_players
  constructor
  · intro heven
    rw [hbyes, if_neg (by omega)]
  · intro hodd
    rw [hbyes, if_pos hodd]
    have hne : t.byeSorted ≠ [] := by
      intro h
      have := hperm.length_eq
      rw [h] at this
      simp only [List.length_nil] at this
      omega
    obtain ⟨p, hp⟩ := Option.isSome_iff_exists.mp (List.getLast?_isSome.mpr hne)
    rw [hp]
    have hpmem : p ∈ t.active_players :=
      hperm.mem_iff.mp (List.mem_of_mem_getLast? hp)
    refine ⟨p, hpmem, rfl, ?_⟩
    intro a ha hap
    have hamem : a ∈ t.byeSorted := hperm.mem_iff.mpr ha
    have hsorted : t.byeSorted.Pairwise (byeLe t) :=
      List.sorted_insertionSort (byeLe t) t.active_players
    rcases pairwise_getLast hsorted hp a hamem with heq | hle
    · exact absurd heq hap
    · rw [byeLe_iff] at hle
      have haP : a ∈ t.players := List.mem_of_mem_filter ha
      have hpP : p ∈ t.players := List.mem_of_mem_filter hpmem
      have hidne : a.id ≠ p.id := by
        intro hid
        exact hap (List.inj_on_of_nodup_map hnodup haP hpP hid)
      have htpnne : t.player_tpn a.id ≠ t.player_tpn p.id := by
        intro htpn
        exact hidne (player_tpn_inj haP hpP htpn)
      omega

/-- C6 witness: the bye-selection theorem applied to `exC6`, whose three
active players give the bye to player 3 (the highest TPN). -/
theorem c6_witness :
    exC6.active_players.length % 2 ≠ 0 ∧
    (exC6.active_players.length % 2 ≠ 0 →
      ∃ p, p ∈ exC6.active_players ∧ [3] = [p.id] ∧
        ∀ a ∈ exC6.active_players, a ≠ p →
          (p.byes < a.byes ∨
            (a.byes = p.byes ∧
              (p.tournament_score < a.tournament_score ∨
                (a.tournament_score = p.tournament_score ∧
                  exC6.player_tpn a.id < exC6.player_tpn p.id))))) :=
  ⟨by decide,
    (c6_bye_selection exC6 (by decide) [(1, 2)] [3] [] (by decide)).2⟩

theorem setPlayerHistory_isSome {id round : Nat} {item : HistoryItem} {cr : Nat} :
    ∀ {ps : List Player}, (∀ p ∈ ps, p.history.length = cr) →
      ((setPlayerHistory ps id round item).isSome ↔
        (id ∈ ps.map Player.id ∧ round < cr)) := by
  intro ps
  induction ps with
  | nil => intro _; simp [setPlayerHistory]
  | cons p rest ih =>
    intro hlen
    have hp : p.history.length = cr := hlen p (List.mem_cons_self _ _)
    have ihr := ih (fun q hq => hlen q (List.mem_cons_of_mem _ hq))
    by_cases hpe : p.id = id
    · simp only [setPlayerHistory, if_pos hpe]
      by_cases hr : round < p.history.length
      · simp only [if_pos hr, Option.isSome_some, true_iff]
        exact ⟨by simp [← hpe], by omega⟩
      · simp only [if_neg hr, Option.isSome_none, Bool.false_eq_true, false_iff]
        rintro ⟨-, hr2⟩
        exact hr (by omega)
    · simp only [setPlayerHistory, if_neg hpe]
      cases hrec : setPlayerHistory rest id round item with
      | none =>
        rw [hrec] at ihr
        simp only [Option.map_none', Option.isSome_none, Bool.false_eq_true,
          false_iff] at ihr ⊢
        rintro ⟨hm, hr⟩
        simp only [List.map_cons, List.mem_cons] at hm
        rcases hm with hm' | hm'
        · exact hpe hm'.symm
        · exact ihr ⟨hm', hr⟩
      | some rest' =>
        rw [hrec] at ihr
        simp only [Option.map_some', Option.isSome_some, true_iff] at ihr ⊢
        exact ⟨by simp [ihr.1], ihr.2⟩

theorem setPlayerHistory_some {id round : Nat} {item : HistoryItem} :
    ∀ {ps ps' : List Player}, setPlayerHistory ps id round item = some ps' →
      ps'.map Player.id = ps.map Player.id ∧
      ∀ cr, (∀ p ∈ ps, p.history.length = cr) →
        ∀ p ∈ ps', p.history.length = cr := by
  intro ps
  induction ps with
  | nil => intro ps' h; exact Option.noConfusion h
  | cons p rest ih =>
    intro ps' h
    by_cases hpe : p.id = id
    · simp only [setPlayerHistory, if_pos hpe] at h
      by_cases hr : round < p.history.length
      · rw [if_pos hr, Option.some_inj] at h
        subst h
        refine ⟨by simp, ?_⟩
        intro cr hlen q hq
        rcases List.mem_cons.mp hq with hq | hq
        · subst hq
          simp only [List.length_set]
          exact hlen p (List.mem_cons_self _ _)
        · exact hlen q (List.mem_cons_of_mem _ hq)
      · rw [if_neg hr] at h
        exact Option.noConfusion h
    · simp only [setPlayerHistory, if_neg hpe] at h
      cases hrec : setPlayerHistory rest id round item with
      | none => rw [hrec] at h; exact Option.noConfusion h
      | some rest' =>
        rw [hrec, Option.map_some'] at h
        rw [Option.some_inj] at h
        subst h
        obtain ⟨hmap, hlen'⟩ := ih hrec
        refine ⟨by simp [hmap], ?_⟩
        intro cr hlen q hq
        rcases List.mem_cons.mp hq with hq | hq
        · subst hq
          exact hlen q (List.mem_cons_self _ _)
        · exact hlen' cr (fun r hr => hlen r (List.mem_cons_of_mem _ hr)) q hq

theorem pushAt_isSome {α : Type} {l : List (List α)} {i : Nat} {x : α} :
    (pushAt l i x).isSome ↔ i < l.length := by
  unfold pushAt
  split
  · rename_i h
    simpa using h
  · rename_i h
    simp only [Option.isSome_none, Bool.false_eq_true, false_iff]
    exact h

theorem pushAt_some_length {α : Type} {l l' : List (List α)} {i : Nat} {x : α}
    (h : pushAt l i x = some l') : l'.length = l.length := by
  unfold pushAt at h
  split at h
  · rw [Option.some_inj] at h
    subst h
    simp
  · exact Option.noConfusion h

theorem applyGaps_isSome {cr : Nat} :
    ∀ (gaps : List DbPairingGap) (players : List Player) (byes : List (List Nat)),
      (∀ p ∈ players, p.history.length = cr) → byes.length = cr →
      ((applyGaps players byes gaps).isSome ↔
        ∀ gap ∈ gaps, gap.player_id ∈ players.map Player.id ∧
          gap.round_id < cr) := by
  intro gaps
  induction gaps with
  | nil => intro players byes _ _; simp [applyGaps]
  | cons gap rest ih =>
    intro players byes hlen hbl
    simp only [List.forall_mem_cons]
    by_cases hb : gap.is_bye
    · simp only [applyGaps, hb, if_true]
      cases hpush : pushAt byes gap.round_id gap.player_id with
      | none =>
        have hnr : ¬ gap.round_id < cr := by
          have hps := @pushAt_isSome Nat byes gap.round_id gap.player_id
          rw [hpush] at hps
          simp only [Option.isSome_none, Bool.false_eq_true, false_iff] at hps
          omega
        cases hset : setPlayerHistory players gap.player_id gap.round_id
            HistoryItem.Bye <;>
          · simp only [Option.isSome_none, Bool.false_eq_true, false_iff]
            rintro ⟨⟨-, hr⟩, -⟩
            exact hnr hr
      | some byes' =>
        have hr : gap.round_id < cr := by
          have hps := @pushAt_isSome Nat byes gap.round_id gap.player_id
          rw [hpush] at hps
          simp only [Option.isSome_some, true_iff] at hps
          omega
        cases hset : setPlayerHistory players gap.player_id gap.round_id
            HistoryItem.Bye with
        | none =>
          have hns := @setPlayerHistory_isSome gap.player_id gap.round_id
            HistoryItem.Bye cr players hlen
          rw [hset] at hns
          simp only [Option.isSome_none, Bool.false_eq_true, false_iff] at hns
          simp only [Option.isSome_none, Bool.false_eq_true, false_iff]
          rintro ⟨⟨hm, -⟩, -⟩
          exact hns ⟨hm, hr⟩
        | some players' =>
          obtain ⟨hmap, hlen'⟩ := setPlayerHistory_some hset
          have hmem : gap.player_id ∈ players.map Player.id := by
            have hps := @setPlayerHistory_isSome gap.player_id gap.round_id
              HistoryItem.Bye cr players hlen
            rw [hset] at hps
            simp only [Option.isSome_some, true_iff] at hps
            exact hps.1
          rw [ih players' byes' (hlen' cr hlen)
            (by rw [pushAt_some_length hpush]; exact hbl)]
          rw [hmap]
          simp [hmem, hr]
    · simp only [applyGaps, hb, if_false, Bool.false_eq_true]
      cases hset : setPlayerHistory players gap.player_id gap.round_id
          (HistoryItem.NotPaired gap.score) with
      | none =>
        have hns := @setPlayerHistory_isSome gap.player_id gap.round_id
          (HistoryItem.NotPaired gap.score) cr players hlen
        rw [hset] at hns
        simp only [Option.isSome_none, Bool.false_eq_true, false_iff] at hns
        simp only [Option.isSome_none, Bool.false_eq_true, false_iff]
        rintro ⟨⟨hm, hr⟩, -⟩
        exact hns ⟨hm, hr⟩
      | some players' =>
        obtain ⟨hmap, hlen'⟩ := setPlayerHistory_some hset
        have hps := @setPlayerHistory_isSome gap.player_id gap.round_id
          (HistoryItem.NotPaired gap.score) cr players hlen
        rw [hset] at hps
        simp only [Option.isSome_some, true_iff] at hps
        rw [ih players' byes (hlen' cr hlen) hbl]
        rw [hmap]
        simp [hps.1, hps.2]

theorem applyGaps_some {cr : Nat} :
    ∀ (gaps : List DbPairingGap) {players : List Player} {byes : List (List Nat)}
      {players' : List Player} {byes' : List (List Nat)},
      applyGaps players byes gaps = some (players', byes') →
      (∀ p ∈ players, p.history.length = cr) → byes.length = cr →
      players'.map Player.id = players.map Player.id ∧
      (∀ p ∈ players', p.history.length = cr) ∧ byes'.length = cr := by
  intro gaps
  induction gaps with
  | nil =>
    intro players byes players' byes' h hlen hbl
    simp only [applyGaps, Option.some_inj] at h
    obtain ⟨h1, h2⟩ := Prod.mk.injEq .. ▸ h
    subst h1
    subst h2
    exact ⟨rfl, hlen, hbl⟩
  | cons gap rest ih =>
    intro players byes players' byes' h hlen hbl
    by_cases hb : gap.is_bye
    · simp only [applyGaps, hb, if_true] at h
      cases hpush : pushAt byes gap.round_id gap.player_id with
      | none =>
        rw [hpush] at h
        cases hset : setPlayerHistory players gap.player_id gap.round_id
            HistoryItem.Bye <;> rw [hset] at h <;> exact Option.noConfusion h
      | some byes1 =>
        rw [hpush] at h
        cases hset : setPlayerHistory players gap.player_id gap.round_id
            HistoryItem.Bye with
        | none => rw [hset] at h; exact Option.noConfusion h
        | some players1 =>
          rw [hset] at h
          obtain ⟨hmap, hlen'⟩ := setPlayerHistory_some hset
          have hbl1 : byes1.length = cr := by
            rw [pushAt_some_length hpush]; exact hbl
          obtain ⟨ha, hb', hc⟩ := ih h (hlen' cr hlen) hbl1
          exact ⟨ha.trans hmap, hb', hc⟩
    · simp only [applyGaps, hb, if_false, Bool.false_eq_true] at h
      cases hset : setPlayerHistory players gap.player_id gap.round_id
          (HistoryItem.NotPaired gap.score) with
      | none => rw [hset] at h; exact Option.noConfusion h
      | some players1 =>
        rw [hset] at h
        obtain ⟨hmap, hlen'⟩ := setPlayerHistory_some hset
        obtain ⟨ha, hb', hc⟩ := ih h (hlen' cr hlen) hbl
        exact ⟨ha.trans hmap, hb', hc⟩

theorem applyPairings_isSome {cr : Nat} :
    ∀ (prs : List DbPairing) (players : List Player)
      (results : List (List (Nat × GameResult))),
      (∀ p ∈ players, p.history.length = cr) → results.length = cr →
      ((applyPairings players results prs).isSome ↔
        ∀ p ∈ prs, p.white_id ∈ players.map Player.id ∧
          p.black_id ∈ players.map Player.id ∧ p.round_number < cr) := by
  intro prs
  induction prs with
  | nil => intro players results _ _; simp [applyPairings]
  | cons pairing rest ih =>
    intro players results hlen hrl
    simp only [List.forall_mem_cons]
    simp only [applyPairings]
    cases hpush : pushAt results pairing.round_number
        (pairing.board_number,
          match pairing.result with
          | some s => GameResult.from_str s
          | none => GameResult.Ongoing) with
    | none =>
      have hps := @pushAt_isSome (Nat × GameResult) results
        pairing.round_number (pairing.board_number,
          match pairing.result with
          | some s => GameResult.from_str s
          | none => GameResult.Ongoing)
      rw [hpush] at hps
      simp only [Option.isSome_none, Bool.false_eq_true, false_iff] at hps
      simp only [Option.none_bind, Option.isSome_none, Bool.false_eq_true,
        false_iff]
      rintro ⟨⟨-, -, hrx⟩, -⟩
      exact hps (by omega)
    | some results1 =>
      have hps := @pushAt_isSome (Nat × GameResult) results
        pairing.round_number (pairing.board_number,
          match pairing.result with
          | some s => GameResult.from_str s
          | none => GameResult.Ongoing)
      rw [hpush] at hps
      simp only [Option.isSome_some, true_iff] at hps
      have hr : pairing.round_number < cr := by omega
      simp only [Option.some_bind]
      cases hset1 : setPlayerHistory players pairing.white_id
          pairing.round_number
          (HistoryItem.Game pairing.black_id Color.White
            (match pairing.result with
             | some s => GameResult.from_str s
             | none => GameResult.Ongoing)) with
      | none =>
        have hns := @setPlayerHistory_isSome pairing.white_id
          pairing.round_number
          (HistoryItem.Game pairing.black_id Color.White
            (match pairing.result with
             | some s => GameResult.from_str s
             | none => GameResult.Ongoing)) cr players hlen
        rw [hset1] at hns
        simp only [Option.isSome_none, Bool.false_eq_true, false_iff] at hns
        simp only [Option.none_bind, Option.isSome_none, Bool.false_eq_true,
          false_iff]
        rintro ⟨⟨hw, -, -⟩, -⟩
        exact hns ⟨hw, hr⟩
      | some players1 =>
        obtain ⟨hmap1, hlen1⟩ := setPlayerHistory_some hset1
        have hw : pairing.white_id ∈ players.map Player.id := by
          have hps1 := @setPlayerHistory_isSome pairing.white_id
            pairing.round_number
            (HistoryItem.Game pairing.black_id Color.White
              (match pairing.result with
               | some s => GameResult.from_str s
               | none => GameResult.Ongoing)) cr players hlen
          rw [hset1] at hps1
          simp only [Option.isSome_some, true_iff] at hps1
          exact hps1.1
        simp only [Option.some_bind]
        cases hset2 : setPlayerHistory players1 pairing.black_id
            pairing.round_number
            (HistoryItem.Game pairing.white_id Color.Black
              (match pairing.result with
               | some s => GameResult.from_str s
               | none => GameResult.Ongoing)) with
        | none =>
          have hns := @setPlayerHistory_isSome pairing.black_id
            pairing.round_number
            (HistoryItem.Game pairing.white_id Color.Black
              (match pairing.result with
               | some s => GameResult.from_str s
               | none => GameResult.Ongoing)) cr players1 (hlen1 cr hlen)
          rw [hset2] at hns
          simp only [Option.isSome_none, Bool.false_eq_true, false_iff] at hns
          simp only [Option.none_bind, Option.isSome_none, Bool.false_eq_true,
            false_iff]
          rintro ⟨⟨-, hb, -⟩, -⟩
          rw [← hmap1] at hb
          exact hns ⟨hb, hr⟩
        | some players2 =>
          obtain ⟨hmap2, hlen2⟩ := setPlayerHistory_some hset2
          have hb : pairing.black_id ∈ players.map Player.id := by
            have hps2 := @setPlayerHistory_isSome pairing.black_id
              pairing.round_number
              (HistoryItem.Game pairing.white_id Color.Black
                (match pairing.result with
                 | some s => GameResult.from_str s
                 | none => GameResult.Ongoing)) cr players1 (hlen1 cr hlen)
            rw [hset2] at hps2
            simp only [Option.isSome_some, true_iff] at hps2
            rw [← hmap1]
            exact hps2.1
          simp only [Option.some_bind]
          rw [ih players2 results1 (hlen2 cr (hlen1 cr hlen))
            (by rw [pushAt_some_length hpush]; exact hrl)]
          rw [hmap2, hmap1]
          simp [hw, hb, hr]

theorem buildRoundPairings_isSome {cr : Nat} :
    ∀ (prs : List DbPairing) (acc : List (List (Nat × Nat × Nat))),
      acc.length = cr →
      ((buildRoundPairings acc prs).isSome ↔
        ∀ p ∈ prs, p.round_number < cr) := by
  intro prs
  induction prs with
  | nil => intro acc _; simp [buildRoundPairings]
  | cons pairing rest ih =>
    intro acc hal
    simp only [List.forall_mem_cons]
    simp only [buildRoundPairings]
    cases hpush : pushAt acc pairing.round_number
        (pairing.board_number, pairing.white_id, pairing.black_id) with
    | none =>
      have hnr : ¬ pairing.round_number < cr := by
        have hps := @pushAt_isSome (Nat × Nat × Nat) acc pairing.round_number
          (pairing.board_number, pairing.white_id, pairing.black_id)
        rw [hpush] at hps
        simp only [Option.isSome_none, Bool.false_eq_true, false_iff] at hps
        omega
      simp only [Option.isSome_none, Bool.false_eq_true, false_iff]
      rintro ⟨hr, -⟩
      exact hnr hr
    | some acc1 =>
      have hr : pairing.round_number < cr := by
        have hps := @pushAt_isSome (Nat × Nat × Nat) acc pairing.round_number
          (pairing.board_number, pairing.white_id, pairing.black_id)
        rw [hpush] at hps
        simp only [Option.isSome_some, true_iff] at hps
        omega
      rw [ih acc1 (by rw [pushAt_some_length hpush]; exact hal)]
      simp [hr]

/-- C10: Tournament Model assembly returns (does not panic) precisely when
every gap row and every pairing row references a registered player id and a
round index strictly below `current_round`; any unregistered id or
out-of-range round makes the original `From` impl panic, modelled here by
`none`. -/
theorem c10_assembly_total_iff (d : TournamentDbData) :
    (fromDbData d).isSome ↔ dbRowsOk d := by
  unfold fromDbData dbRowsOk
  dsimp only
  have hmap0 : (d.players.map (initPlayer d.tournament.current_round)).map
      Player.id = d.players.map DbRegistration.id := by
    rw [List.map_map]
    rfl
  have hlen0 : ∀ p ∈ d.players.map (initPlayer d.tournament.current_round),
      p.history.length = d.tournament.current_round := by
    intro p hp
    obtain ⟨r, -, rfl⟩ := List.mem_map.mp hp
    simp [initPlayer]
  cases hg : applyGaps (d.players.map (initPlayer d.tournament.current_round))
      (List.replicate d.tournament.current_round []) d.pairing_gaps with
  | none =>
    have hch := applyGaps_isSome d.pairing_gaps
      (d.players.map (initPlayer d.tournament.current_round))
      (List.replicate d.tournament.current_round []) hlen0 (by simp)
    rw [hg] at hch
    simp only [Option.isSome_none, Bool.false_eq_true, false_iff] at hch ⊢
    rw [hmap0] at hch
    rintro ⟨hgaps, -⟩
    exact hch hgaps
  | some pb =>
    obtain ⟨players1, byes1⟩ := pb
    dsimp only
    have hgaps : ∀ gap ∈ d.pairing_gaps,
        gap.player_id ∈ d.players.map DbRegistration.id ∧
        gap.round_id < d.tournament.current_round := by
      have hch := applyGaps_isSome d.pairing_gaps
        (d.players.map (initPlayer d.tournament.current_round))
        (List.replicate d.tournament.current_round []) hlen0 (by simp)
      rw [hg] at hch
      rw [hmap0] at hch
      exact hch.mp rfl
    obtain ⟨hmap1, hlen1, -⟩ := applyGaps_some d.pairing_gaps hg hlen0 (by simp)
    cases hp : applyPairings players1
        (List.replicate d.tournament.current_round []) d.pairings with
    | none =>
      have hch := applyPairings_isSome d.pairings players1
        (List.replicate d.tournament.current_round []) hlen1 (by simp)
      rw [hp] at hch
      simp only [Option.isSome_none, Bool.false_eq_true, false_iff] at hch ⊢
      rw [hmap1, hmap0] at hch
      rintro ⟨-, hprs⟩
      exact hch hprs
    | some pr =>
      obtain ⟨players2, results2⟩ := pr
      dsimp only
      have hprs : ∀ p ∈ d.pairings,
          p.white_id ∈ d.players.map DbRegistration.id ∧
          p.black_id ∈ d.players.map DbRegistration.id ∧
          p.round_number < d.tournament.current_round := by
        have hch := applyPairings_isSome d.pairings players1
          (List.replicate d.tournament.current_round []) hlen1 (by simp)
        rw [hp] at hch
        rw [hmap1, hmap0] at hch
        exact hch.mp rfl
      cases hbrp : buildRoundPairings
          (List.replicate d.tournament.current_round []) d.pairings with
      | none =>
        exfalso
        have hch := @buildRoundPairings_isSome d.tournament.current_round
          d.pairings (List.replicate d.tournament.current_round []) (by simp)
        rw [hbrp] at hch
        simp only [Option.isSome_none, Bool.false_eq_true, false_iff] at hch
        exact hch (fun p hp => (hprs p hp).2.2)
      | some rps =>
        simp only [Option.isSome_some, true_iff]
        exact ⟨hgaps, hprs⟩

/-- C2 witness: the partition theorem applied to `exC2`. -/
theorem c2_witness :
    ((exC2.group_players_by_score.flatMap (fun g => g.snd)).Perm exC2.players) ∧
    (∀ g ∈ exC2.group_players_by_score, ∀ p ∈ g.snd,
      p.tournament_score = g.fst) ∧
    (∀ g ∈ exC2.group_players_by_score, g.snd.Pairwise (tpnLe exC2)) :=
  c2_groups_cover_all_players exC2

/-- C3 witness: the `InsufficientPlayers` characterization applied to `exC3`
and an empty payload. -/
theorem c3_witness :
    generate_next_pairings exC3 ⟨none, []⟩ =
        some (.error .InsufficientPlayers) ↔
      ((inactive_scores_try_from ([] : List (Nat × String))).isOk = true ∧
        exC3.players.length < 2) :=
  c3_insufficient_players_iff exC3 ⟨none, []⟩

/-- C7 witness: the edge-weight formula applied to two concrete players of
`exC4` with concrete ranks, sizes and minimum score. -/
theorem c7_witness :
    edge_weight (exC4.getPlayer 1) (exC4.getPlayer 2) (0, 1) (2, 2) 0 =
      edge_weight_spec (exC4.getPlayer 1) (exC4.getPlayer 2) (0, 1) (2, 2) 0 :=
  c7_edge_weight_formula (exC4.getPlayer 1) (exC4.getPlayer 2) (0, 1) (2, 2) 0

/-- C9 witness: the result-update characterization applied to `exC4` and a
concrete payload. -/
theorem c9_witness :
    update_result exC4 ⟨1, 0, "1-0"⟩ = update_result_spec exC4 ⟨1, 0, "1-0"⟩ :=
  c9_update_result_spec exC4 ⟨1, 0, "1-0"⟩

/-- A two-registration, one-round data set for the assembly theorem. -/
def exDb : TournamentDbData :=
  { tournament :=
      { id := 7, name := "T", current_round := 1, num_rounds := 2,
        time_category := "standard", start_date := 0, federation := "FIDE",
        username := "u", user_id := 0, updated_at := 0, end_date := none,
        url := none },
    players :=
      [{ id := 1, floats := 0, status := "active", player_id := 10,
         rating := 1500, first_name := "A", last_name := "B",
         federation := none, fide_id := none, title := "" },
       { id := 2, floats := 0, status := "active", player_id := 11,
         rating := 1400, first_name := "C", last_name := "D",
         federation := none, fide_id := none, title := "" }],
    pairings :=
      [{ id := 1, tournament_id := 7, round_number := 0, board_number := 0,
         white_id := 1, black_id := 2, result := some "1-0", pgn := none }],
    pairing_gaps := [] }

/-- C10 witness: the assembly totality theorem applied to `exDb`. -/
theorem c10_witness : (fromDbData exDb).isSome ↔ dbRowsOk exDb :=
  c10_assembly_total_iff exDb

end Swiss
